import Mathlib

/-!
# MuleRift — verification of the fraud-ring analysis contract

Shallow embedding of the MuleRift repository: the TypeScript data contract
(`types.ts`), the process bridge (`analyzeCsv`), the HTTP route handlers
(`/api/analyze` POST, sample-analysis POST/GET), the presentation-layer
`generateGraphEdges`, and a model of the analysis engine described by the
specification (the Python engine itself is not part of the visible source).
-/

namespace MuleRift

/-- A JSON value, used to state shape properties of serialized results and to
model `JSON.parse` outcomes abstractly. -/
inductive Json where
  | str (s : String)
  | num (q : ℚ)
  | null
  | bool (b : Bool)
  | arr (xs : List Json)
  | obj (fields : List (String × Json))
deriving Repr

/-! ## Data contract (`types.ts`) -/

/-- Record `SuspiciousAccount` from the TypeScript data contract. -/
structure SuspiciousAccount where
  account_id : String
  suspicion_score : ℚ
  detected_patterns : List String
  ring_id : Option String
deriving Repr, DecidableEq, Inhabited

/-- Record `FraudRing` from the TypeScript data contract. -/
structure FraudRing where
  ring_id : String
  member_accounts : List String
  pattern_type : String
  risk_score : ℚ
deriving Repr, DecidableEq, Inhabited

/-- The `summary` object of `AnalysisResult`. -/
structure Summary where
  total_accounts_analyzed : ℕ
  suspicious_accounts_flagged : ℕ
  fraud_rings_detected : ℕ
  processing_time_seconds : ℚ
deriving Repr, DecidableEq, Inhabited

/-- Record `AnalysisResult` from the TypeScript data contract. -/
structure AnalysisResult where
  suspicious_accounts : List SuspiciousAccount
  fraud_rings : List FraudRing
  summary : Summary
deriving Repr, DecidableEq, Inhabited

/-! ## Process bridge (`analyzeCsv`)

`analyzeCsv` spawns `python main.py <csvPath>`, buffers stdout and stderr, and
on `close` either rejects (non-zero exit code, message embedding stderr) or
parses stdout as JSON. The child-process behavior and the JS `JSON.parse` are
external to the repository, so they are parameters of the model. -/

/-- Observed behavior of one spawned engine process: its exit code and the
captured standard output / standard error text. -/
structure ProcessRun where
  exitCode : Int
  stdout : String
  stderr : String
deriving Repr, DecidableEq

/-- The argument vector passed to `spawn`: the Python script path followed by
the CSV path, exactly as in `spawn(pythonCommand, [pythonScript, csvPath])`. -/
def spawnArgs (pythonScript csvPath : String) : List String :=
  [pythonScript, csvPath]

/-- The argument list the engine script itself receives: everything after the
script path in the spawn argument vector. -/
def engineArgs (pythonScript csvPath : String) : List String :=
  (spawnArgs pythonScript csvPath).drop 1

/-- Function `analyzeCsv`, resolved against one observed process run. `parseJson`
models the JS `JSON.parse` (`none` = parse throws). -/
def analyzeCsv (parseJson : String → Option Json) (run : ProcessRun) :
    Except String Json :=
  if run.exitCode ≠ 0 then
    .error ("Python process exited with code " ++ toString run.exitCode ++ ": "
      ++ run.stderr)
  else
    match parseJson run.stdout with
    | some v => .ok v
    | none => .error ("Failed to parse Python output: " ++ run.stdout)

/-! ## `/api/analyze` POST handler (`src/app/api/analyze/route.ts`) -/

/-- A JS exception: `some msg` for an `Error` with message `msg`, `none` for a
thrown non-`Error` value. -/
abbrev JsErr := Option String

/-- Outcome of the `fetch` to the backend: response flag `ok`, the body as
text (for the error branch) and the body parsed as JSON (`.error` when
`response.json()` throws). -/
structure FetchResp where
  ok : Bool
  textBody : String
  jsonBody : Except JsErr Json
deriving Repr

/-- Environment and external-call behavior visible to one invocation of the
analyze POST handler. `formFile` is the result of
`(await request.formData()).get("file")` (`.error` when `formData()` throws,
`.ok none` when the form has no `file` entry). -/
structure AnalyzeWorld where
  formFile : Except JsErr (Option String)
  backendUrl : Option String
  fetchResult : Except JsErr FetchResp

/-- An HTTP response produced with `NextResponse.json`: status and JSON body. -/
structure HttpResponse where
  status : ℕ
  body : Json
deriving Repr

/-- The catch-block body: `error instanceof Error ? error.message : "Analysis
failed"` wrapped as `{ error: ... }` with status 500. -/
def analyzeCatch (e : JsErr) : HttpResponse :=
  ⟨500, .obj [("error", .str (e.getD "Analysis failed"))]⟩

/-- The POST handler of `/api/analyze`: guards on the uploaded file and the
backend URL, forwards to the backend, and converts every thrown exception into
a 500 JSON response. -/
def analyzePOST (w : AnalyzeWorld) : HttpResponse :=
  match w.formFile with
  | .error e => analyzeCatch e
  | .ok none => ⟨400, .obj [("error", .str "No file provided")]⟩
  | .ok (some _) =>
    match w.backendUrl with
    | none => ⟨500, .obj [("error", .str "Backend URL not configured")]⟩
    | some _ =>
      match w.fetchResult with
      | .error e => analyzeCatch e
      | .ok resp =>
        if resp.ok then
          match resp.jsonBody with
          | .ok j => ⟨200, j⟩
          | .error e => analyzeCatch e
        else
          analyzeCatch (some ("Backend analysis failed: " ++ resp.textBody))

/-! ## Sample-analysis route: POST and GET handlers

The two handlers' bodies are translated independently from the two function
declarations in the route file; both are resolved against the same view of the
environment and of the external `fetch` calls. -/

/-- Environment and external-call behavior visible to one invocation of a
sample-analysis handler: the two environment variables, the sample-CSV fetch
(`ok` flag plus blob identity), and the backend fetch. -/
structure SampleWorld where
  backendUrl : Option String
  baseUrl : Option String
  csvFetch : Except JsErr FetchResp
  backendFetch : Except JsErr FetchResp

/-- The catch-block of the sample handlers: message or `"Sample analysis
failed"`, status 500. -/
def sampleCatch (e : JsErr) : HttpResponse :=
  ⟨500, .obj [("error", .str (e.getD "Sample analysis failed"))]⟩

/-- The POST handler of the sample-analysis route, translated from its own
function body. -/
def samplePOST (w : SampleWorld) : HttpResponse :=
  match w.backendUrl with
  | none => ⟨500, .obj [("error", .str "Backend URL not configured")]⟩
  | some _ =>
    match w.csvFetch with
    | .error e => sampleCatch e
    | .ok csvResp =>
      if csvResp.ok then
        match w.backendFetch with
        | .error e => sampleCatch e
        | .ok resp =>
          if resp.ok then
            match resp.jsonBody with
            | .ok j => ⟨200, j⟩
            | .error e => sampleCatch e
          else
            sampleCatch (some ("Backend analysis failed: " ++ resp.textBody))
      else
        sampleCatch (some "Failed to fetch sample CSV")

/-- The GET handler of the sample-analysis route, translated from its own
function body. -/
def sampleGET (w : SampleWorld) : HttpResponse :=
  match w.backendUrl with
  | none => ⟨500, .obj [("error", .str "Backend URL not configured")]⟩
  | some _ =>
    match w.csvFetch with
    | .error e => sampleCatch e
    | .ok csvResp =>
      if csvResp.ok then
        match w.backendFetch with
        | .error e => sampleCatch e
        | .ok resp =>
          if resp.ok then
            match resp.jsonBody with
            | .ok j => ⟨200, j⟩
            | .error e => sampleCatch e
          else
            sampleCatch (some ("Backend analysis failed: " ++ resp.textBody))
      else
        sampleCatch (some "Failed to fetch sample CSV")

/-! ## Presentation layer: `generateGraphEdges`

The source calls `Math.random()` twice per edge and `Date.now()` once per
edge; these ambient sources are modelled as a stream `rand : ℕ → ℚ` (the k-th
`Math.random()` call of the run) and an instant `now : ℚ` (epoch
milliseconds). The ISO-8601 rendering of an instant is injective, so the
timestamp fields are modelled as the instant itself. -/

/-- A visualization edge as built by `generateGraphEdges`. -/
structure GraphEdge where
  source : String
  target : String
  total_amount : ℚ
  earliest_timestamp : ℚ
  latest_timestamp : ℚ
deriving Repr, DecidableEq

/-- State threaded through the edge-generation loops: edges pushed so far and
the number of `Math.random()` calls consumed so far. -/
structure EdgeGenSt where
  edges : List GraphEdge
  k : ℕ
deriving Repr

/-- One `edges.push({...})` with `amount = Math.random()*scale + off` and
`hoursAgo = Math.random()*72`. -/
def pushEdge (rand : ℕ → ℚ) (now : ℚ) (scale off : ℚ) (st : EdgeGenSt)
    (s t : String) : EdgeGenSt :=
  let amount := rand st.k * scale + off
  let hoursAgo := rand (st.k + 1) * 72
  let ts := now - hoursAgo * 60 * 60 * 1000
  ⟨st.edges ++ [⟨s, t, amount, ts, ts⟩], st.k + 2⟩

/-- The per-ring loop of `generateGraphEdges`: for a `"cycle"` ring, one edge
from member `i` to member `(i+1) % n` for each `i < n`. -/
def genRingEdges (rand : ℕ → ℚ) (now : ℚ) (st : EdgeGenSt) (ring : FraudRing) :
    EdgeGenSt :=
  if ring.pattern_type == "cycle" then
    (List.range ring.member_accounts.length).foldl
      (fun st i =>
        pushEdge rand now 10000 1000 st
          (ring.member_accounts.getD i "")
          (ring.member_accounts.getD ((i + 1) % ring.member_accounts.length) ""))
      st
  else st

/-- JS falsiness of a `string | null` field: `null` and `""` are falsy. -/
def falsyRingId (o : Option String) : Bool :=
  match o with
  | none => true
  | some s => s == ""

/-- Function `generateGraphEdges` from the dashboard library: cycle-ring edges followed
by up to `Math.min(nonRingAccounts.length - 1, 5)` chain edges between
consecutive accounts whose `ring_id` is falsy. -/
def generateGraphEdges (rand : ℕ → ℚ) (now : ℚ) (data : AnalysisResult) :
    List GraphEdge :=
  let st1 := data.fraud_rings.foldl (genRingEdges rand now) ⟨[], 0⟩
  let nonRing := data.suspicious_accounts.filter (fun a => falsyRingId a.ring_id)
  let bound : Int := min ((nonRing.length : Int) - 1) 5
  let st2 := (List.range bound.toNat).foldl
    (fun st i =>
      pushEdge rand now 5000 500 st
        ((nonRing.getD i default).account_id)
        ((nonRing.getD (i + 1) default).account_id))
    st1
  st2.edges

/-! ## Analysis engine, modelled from the specification

The Python engine (`python-engine/main.py`) is referenced by the visible
source but not included in it; the definitions below are modelled from the
specification of the engine. -/

/-- Modelled from the spec: a validated `Transaction` record of the Ledger
Loader. Amounts are decimals (ℚ), timestamps instants (ℤ, epoch seconds). -/
structure Transaction where
  id : String
  source_account : String
  target_account : String
  amount : ℚ
  timestamp : ℤ
deriving Repr, DecidableEq

/-- Modelled from the spec: a raw tabular row before validation; a field is
`none` when missing or unparsable. -/
structure RawRow where
  id : Option String
  source_account : Option String
  target_account : Option String
  amount : Option ℚ
  timestamp : Option ℤ
deriving Repr

/-- Modelled from the spec: Ledger Loader row validation — a row is rejected
when a field is missing or the amount is not positive. -/
def parseRow (r : RawRow) : Option Transaction := do
  let i ← r.id
  let s ← r.source_account
  let t ← r.target_account
  let a ← r.amount
  let ts ← r.timestamp
  if 0 < a then pure ⟨i, s, t, a, ts⟩ else none

/-- Modelled from the spec: the Ledger Loader in its default lenient mode —
malformed rows are skipped, valid rows are kept in order. -/
def loadLenient (rows : List RawRow) : List Transaction :=
  rows.filterMap parseRow

/-- Modelled from the spec: the node set of the account graph — the distinct
account ids seen as source or target of any transaction. -/
def accountsOf (txs : List Transaction) : List String :=
  (txs.map (fun t => t.source_account) ++ txs.map (fun t => t.target_account)).dedup

/-- Accounts of the graph in ascending id order, used for deterministic
iteration order across detectors. -/
def sortedAccounts (txs : List Transaction) : List String :=
  (accountsOf txs).insertionSort (· ≤ ·)

/-- Clamp a rational signal strength into the `[0,1]` range required of a
`DetectionSignal`. -/
def clamp01 (q : ℚ) : ℚ := max 0 (min 1 q)

/-- Modelled from the spec: per-account, per-pattern evidence produced by a
detector. -/
structure DetectionSignal where
  account_id : String
  pattern_type : String
  strength : ℚ
  ring_hint : List String
deriving Repr

/-! ### Cycle Detector (modelled from the spec)

Bounded depth-first search for directed cycles of length 3–8 over forward
edges, self-loops excluded, one report per cycle canonicalized at its
lexicographically smallest account id. -/

/-- Forward-edge successors of an account: distinct targets of its outgoing
transactions, self-loops excluded. -/
def forwardTargets (txs : List Transaction) (a : String) : List String :=
  ((txs.filter (fun t => t.source_account == a && t.target_account != a)).map
    (fun t => t.target_account)).dedup

/-- Modelled from the spec: cycle DFS. `path` is the current simple path from
`start` to `cur` inclusive; a successor equal to `start` closes a cycle when
the path already has length ≥ 3; other unvisited successors extend the path
while it is shorter than `maxLen`. -/
def cycleSearch (txs : List Transaction) (maxLen : ℕ) (start : String) :
    List String → String → ℕ → List (List String)
  | _, _, 0 => []
  | path, cur, fuel + 1 =>
    (forwardTargets txs cur).flatMap fun nxt =>
      (if nxt == start && decide (3 ≤ path.length) then [path] else []) ++
      (if !path.contains nxt && nxt != start && decide (path.length < maxLen)
       then cycleSearch txs maxLen start (path ++ [nxt]) nxt fuel
       else [])

/-- Modelled from the spec: all cycles of length 3–8, each reported once from
its lexicographically smallest member. -/
def detectCycles (txs : List Transaction) : List (List String) :=
  (sortedAccounts txs).flatMap fun s =>
    (cycleSearch txs 8 s [s] s 9).filter fun c => c.all (fun a => s ≤ a)

/-- Timestamps of the transactions realizing a cycle's consecutive edges. -/
def cycleEdgeTimes (txs : List Transaction) (c : List String) : List ℤ :=
  let pairs := c.zip (c.rotate 1)
  (txs.filter (fun t => pairs.contains (t.source_account, t.target_account))).map
    (fun t => t.timestamp)

/-- Temporal span of a list of instants (0 when empty). -/
def timeSpan (ts : List ℤ) : ℤ :=
  (ts.foldr max 0) - (ts.foldr min 0) |>.natAbs

/-- Modelled from the spec: cycle signal strength — scales with `1 / length`;
cycles whose transactions span more than the 30-day window (2592000 s) are
down-weighted by half, not discarded. -/
def cycleStrength (txs : List Transaction) (c : List String) : ℚ :=
  let base : ℚ := if c.length = 0 then 0 else 1 / (c.length : ℚ)
  clamp01 (if timeSpan (cycleEdgeTimes txs c) ≤ 2592000 then base else base / 2)

/-- Modelled from the spec: the Cycle Detector's signals — every account on a
reported cycle gets a signal whose `ring_hint` is the full member set. -/
def cycleSignals (txs : List Transaction) : List DetectionSignal :=
  (detectCycles txs).flatMap fun c =>
    c.map fun m => ⟨m, "cycle", cycleStrength txs c, c⟩

/-! ### Smurfing Detector (modelled from the spec)

A hub qualifies when, inside some 72-hour window, more than 8 distinct
counterparties move sub-ceiling amounts (< 10000) in (fan-in) or out
(fan-out); the first qualifying window anchored at one of the hub's own
sub-ceiling transactions is used. -/

/-- Sample variance of a list of rationals (0 when empty). -/
def varOf (l : List ℚ) : ℚ :=
  if l.length = 0 then 0
  else
    let n : ℚ := l.length
    let m := l.sum / n
    ((l.map fun x => (x - m) ^ 2).sum) / n

/-- Inbound sub-ceiling transactions of a hub (self-loops excluded). -/
def smallInbound (txs : List Transaction) (h : String) : List Transaction :=
  txs.filter fun t =>
    t.target_account == h && t.source_account != h && decide (t.amount < 10000)

/-- Outbound sub-ceiling transactions of a hub (self-loops excluded). -/
def smallOutbound (txs : List Transaction) (h : String) : List Transaction :=
  txs.filter fun t =>
    t.source_account == h && t.target_account != h && decide (t.amount < 10000)

/-- Modelled from the spec: first qualifying 72-hour (259200 s) window among
`pool`, anchored at one of the pool's transactions; returns the distinct
counterparties (by `side`) and the window's amounts when their count exceeds
the fan threshold 8. -/
def fanWindow (pool : List Transaction) (side : Transaction → String) :
    Option (List String × List ℚ) :=
  pool.findSome? fun t0 =>
    let w := pool.filter fun t =>
      decide (t0.timestamp ≤ t.timestamp) &&
      decide (t.timestamp ≤ t0.timestamp + 259200)
    let cps := (w.map side).dedup
    if 8 < cps.length then some (cps, w.map fun t => t.amount) else none

/-- Modelled from the spec: smurfing signal strength — scales with the fan
count and inversely with the variance of the window's amounts. -/
def smurfStrength (cps : List String) (amts : List ℚ) : ℚ :=
  clamp01 ((cps.length : ℚ) / 16 * (1 / (1 + varOf amts)))

/-- One signal per hint member, all carrying the same strength and the full
hint as `ring_hint`. -/
def smurfHintSignals (str : ℚ) (hint : List String) : List DetectionSignal :=
  hint.map fun a => ⟨a, "smurfing", str, hint⟩

/-- Modelled from the spec: the smurfing signals of one hub — on a qualifying
fan-in or fan-out window, the hub and the window's counterparties each get a
signal whose `ring_hint` is the hub plus those counterparties. -/
def smurfSignalsFor (txs : List Transaction) (h : String) : List DetectionSignal :=
  (match fanWindow (smallInbound txs h) (fun t => t.source_account) with
   | some (cps, amts) => smurfHintSignals (smurfStrength cps amts) ((h :: cps).dedup)
   | none => []) ++
  (match fanWindow (smallOutbound txs h) (fun t => t.target_account) with
   | some (cps, amts) => smurfHintSignals (smurfStrength cps amts) ((h :: cps).dedup)
   | none => [])

/-- Modelled from the spec: the Smurfing Detector's signals, hubs visited in
ascending account-id order. -/
def smurfSignals (txs : List Transaction) : List DetectionSignal :=
  (sortedAccounts txs).flatMap (smurfSignalsFor txs)

/-! ### Shell Detector (modelled from the spec)

A shell account has pass-through ratio within ±5% of 1 and median dwell time
(inbound receipt to next outbound forwarding) under 24 hours. -/

/-- Inbound transactions of an account (self-loops excluded). -/
def inboundTxs (txs : List Transaction) (a : String) : List Transaction :=
  txs.filter fun t => t.target_account == a && t.source_account != a

/-- Outbound transactions of an account (self-loops excluded). -/
def outboundTxs (txs : List Transaction) (a : String) : List Transaction :=
  txs.filter fun t => t.source_account == a && t.target_account != a

/-- Aggregate inbound volume of an account. -/
def inVolume (txs : List Transaction) (a : String) : ℚ :=
  ((inboundTxs txs a).map fun t => t.amount).sum

/-- Aggregate outbound volume of an account. -/
def outVolume (txs : List Transaction) (a : String) : ℚ :=
  ((outboundTxs txs a).map fun t => t.amount).sum

/-- Pass-through ratio out-volume / in-volume (0 when no inbound volume). -/
def passThroughRate (txs : List Transaction) (a : String) : ℚ :=
  if inVolume txs a = 0 then 0 else outVolume txs a / inVolume txs a

/-- Delay from an inbound transaction to the account's next outbound
transaction, when one exists. -/
def nextOutDelay (txs : List Transaction) (a : String) (ti : Transaction) :
    Option ℤ :=
  (((outboundTxs txs a).filter fun t => decide (ti.timestamp ≤ t.timestamp)).map
    fun t => t.timestamp - ti.timestamp).min?

/-- Dwell delays of an account: one delay per inbound transaction that has a
following outbound transaction. -/
def dwellDelays (txs : List Transaction) (a : String) : List ℤ :=
  (inboundTxs txs a).filterMap (nextOutDelay txs a)

/-- Median of a list of instants (`none` when empty). -/
def medianOf (l : List ℤ) : Option ℤ :=
  let s := l.insertionSort (· ≤ ·)
  s.get? (s.length / 2)

/-- Modelled from the spec: shell qualification — positive inbound volume,
pass-through ratio within ±5% of 1, median dwell under 24 hours (86400 s). -/
def shellQualifies (txs : List Transaction) (a : String) : Bool :=
  decide (0 < inVolume txs a) &&
  decide (|passThroughRate txs a - 1| ≤ 1 / 20) &&
  (match medianOf (dwellDelays txs a) with
   | some d => decide (d < 86400)
   | none => false)

/-- Modelled from the spec: shell signal strength — scales with closeness of
the pass-through ratio to 1 and inversely with the median dwell time. -/
def shellStrength (txs : List Transaction) (a : String) : ℚ :=
  let med : ℚ := ((medianOf (dwellDelays txs a)).getD 0 : ℤ)
  clamp01 ((1 - 20 * |passThroughRate txs a - 1|) * (86400 / (86400 + max 0 med)))

/-- Modelled from the spec: the shell signals of one account — the flagged
shell's `ring_hint` is itself plus its immediate upstream and downstream
counterparties. -/
def shellSignalsFor (txs : List Transaction) (a : String) : List DetectionSignal :=
  if shellQualifies txs a then
    let hint := (a :: (((inboundTxs txs a).map fun t => t.source_account) ++
      ((outboundTxs txs a).map fun t => t.target_account))).dedup
    hint.map fun m => ⟨m, "shell", shellStrength txs a, hint⟩
  else []

/-- Modelled from the spec: the Shell Detector's signals, accounts visited in
ascending account-id order. -/
def shellSignals (txs : List Transaction) : List DetectionSignal :=
  (sortedAccounts txs).flatMap (shellSignalsFor txs)

/-- Modelled from the spec: the merged signal streams of the three detectors,
merged only at the Scorer's synchronization point. -/
def allSignals (txs : List Transaction) : List DetectionSignal :=
  cycleSignals txs ++ smurfSignals txs ++ shellSignals txs

/-! ### Suspicion Scorer (modelled from the spec) -/

/-- The three pattern labels, in sorted order. -/
def patternLabels : List String := ["cycle", "shell", "smurfing"]

/-- Maximum of a list of rationals with floor 0. -/
def maxScore (l : List ℚ) : ℚ := l.foldr max 0

/-- Strongest signal of one pattern type for one account (0 when none). -/
def patternStrength (sigs : List DetectionSignal) (a p : String) : ℚ :=
  maxScore ((sigs.filter fun s => s.account_id == a && s.pattern_type == p).map
    fun s => s.strength)

/-- Modelled from the spec: the Scorer's deterministic weighted sum of
per-pattern signal strengths (default equal weights), scaled to `[0,100]` and
capped at 100. -/
def suspicionScore (sigs : List DetectionSignal) (a : String) : ℚ :=
  min 100 (100 * (patternLabels.map (patternStrength sigs a)).sum)

/-- Modelled from the spec: the deduplicated, sorted pattern labels whose
signal strength for the account exceeds the per-pattern floor 0.1. -/
def detectedPatterns (sigs : List DetectionSignal) (a : String) : List String :=
  patternLabels.filter fun p => decide (1 / 10 < patternStrength sigs a p)

/-- Modelled from the spec: the suspicion reporting threshold (default 40). -/
def reportingThreshold : ℚ := 40

/-! ### Ring Aggregator (modelled from the spec) -/

/-- One union-find step: merge a hint into the clusters it overlaps. -/
def insertHint (clusters : List (List String)) (h : List String) :
    List (List String) :=
  let (overlap, rest) := clusters.partition fun c => c.any h.contains
  (overlap.flatten ++ h).dedup :: rest

/-- Modelled from the spec: connected components over hint membership —
overlapping hints of the same pattern type are unioned. -/
def mergeHints (hints : List (List String)) : List (List String) :=
  hints.foldl insertHint []

/-- The clusters of one pattern type: merged `ring_hint`s of that pattern's
signals. -/
def clustersFor (sigs : List DetectionSignal) (p : String) : List (List String) :=
  mergeHints ((sigs.filter fun s => s.pattern_type == p).map fun s => s.ring_hint)

/-- Modelled from the spec: the stable ring id, derived from the pattern type
and the sorted member set. -/
def ringIdOf (p : String) (members : List String) : String :=
  p ++ "_" ++ String.intercalate "-" members

/-- Modelled from the spec: a `FraudRing` built from one cluster — sorted
members, derived ring id, and risk score the maximum member suspicion
score. -/
def mkRing (sigs : List DetectionSignal) (p : String) (cluster : List String) :
    FraudRing :=
  let ms := cluster.insertionSort (· ≤ ·)
  ⟨ringIdOf p ms, ms, p, maxScore (ms.map (suspicionScore sigs))⟩

/-- Ordering of rings in the report: descending risk score, ties by ring id. -/
def ringOrder (a b : FraudRing) : Prop :=
  b.risk_score < a.risk_score ∨ (a.risk_score = b.risk_score ∧ a.ring_id ≤ b.ring_id)

instance : DecidableRel ringOrder := fun a b => by
  unfold ringOrder; infer_instance

/-- Modelled from the spec: all fraud rings — one per cluster and pattern
type, sorted for the report. -/
def aggregateRings (sigs : List DetectionSignal) : List FraudRing :=
  (patternLabels.flatMap fun p => (clustersFor sigs p).map (mkRing sigs p)
    ).insertionSort fun a b => decide (ringOrder a b)

/-- The ring id recorded on a suspicious account: the first report ring that
contains it, `none` when it is in no ring. -/
def ringIdFor (rings : List FraudRing) (a : String) : Option String :=
  (rings.find? fun r => r.member_accounts.contains a).map fun r => r.ring_id

/-! ### Result Assembler (modelled from the spec) -/

/-- Ordering of accounts in the report: descending suspicion score, ties by
account id. -/
def accountOrder (a b : SuspiciousAccount) : Prop :=
  b.suspicion_score < a.suspicion_score ∨
    (a.suspicion_score = b.suspicion_score ∧ a.account_id ≤ b.account_id)

instance : DecidableRel accountOrder := fun a b => by
  unfold accountOrder; infer_instance

/-- Modelled from the spec: the flagged suspicious accounts — every graph
account whose combined score meets the reporting threshold, with its pattern
labels and ring id, sorted for the report. -/
def flaggedAccounts (txs : List Transaction) (sigs : List DetectionSignal)
    (rings : List FraudRing) : List SuspiciousAccount :=
  (((sortedAccounts txs).filter fun a =>
      decide (reportingThreshold ≤ suspicionScore sigs a)).map fun a =>
    ⟨a, suspicionScore sigs a, detectedPatterns sigs a, ringIdFor rings a⟩
    ).insertionSort fun a b => decide (accountOrder a b)

/-- Modelled from the spec: the engine pipeline from the validated transaction
sequence on: detectors, Scorer, Aggregator and Result Assembler. Wall-clock
`processing_time_seconds` is environment time, external to the visible source;
the spec's idempotence property makes the result a function of the input
alone, so the model stamps 0. -/
def runEngineTx (txs : List Transaction) : AnalysisResult :=
  let sigs := allSignals txs
  let rings := aggregateRings sigs
  let suspicious := flaggedAccounts txs sigs rings
  { suspicious_accounts := suspicious
    fraud_rings := rings
    summary :=
      { total_accounts_analyzed := (accountsOf txs).length
        suspicious_accounts_flagged := suspicious.length
        fraud_rings_detected := rings.length
        processing_time_seconds := 0 } }

/-- Modelled from the spec: the whole engine, Ledger Loader through Result
Assembler. -/
def runEngine (rows : List RawRow) : AnalysisResult :=
  runEngineTx (loadLenient rows)

/-! ### Serialization (modelled from the spec's output JSON shape) -/

/-- Serialization of a `SuspiciousAccount` to its contract JSON object. -/
def accountToJson (a : SuspiciousAccount) : Json :=
  .obj [("account_id", .str a.account_id),
        ("suspicion_score", .num a.suspicion_score),
        ("detected_patterns", .arr (a.detected_patterns.map .str)),
        ("ring_id", match a.ring_id with | some r => .str r | none => .null)]

/-- Serialization of a `FraudRing` to its contract JSON object. -/
def ringToJson (r : FraudRing) : Json :=
  .obj [("ring_id", .str r.ring_id),
        ("member_accounts", .arr (r.member_accounts.map .str)),
        ("pattern_type", .str r.pattern_type),
        ("risk_score", .num r.risk_score)]

/-- Serialization of the `summary` object. -/
def summaryToJson (s : Summary) : Json :=
  .obj [("total_accounts_analyzed", .num s.total_accounts_analyzed),
        ("suspicious_accounts_flagged", .num s.suspicious_accounts_flagged),
        ("fraud_rings_detected", .num s.fraud_rings_detected),
        ("processing_time_seconds", .num s.processing_time_seconds)]

/-- Modelled from the spec: the Result Assembler's serialization of the final
report. -/
def resultToJson (res : AnalysisResult) : Json :=
  .obj [("suspicious_accounts", .arr (res.suspicious_accounts.map accountToJson)),
        ("fraud_rings", .arr (res.fraud_rings.map ringToJson)),
        ("summary", summaryToJson res.summary)]

/-! ### The output contract shape, stated from the spec's words -/

/-- Test for a JSON string value. -/
def isStrJson : Json → Bool
  | .str _ => true
  | _ => false

/-- Test for a JSON number value. -/
def isNumJson : Json → Bool
  | .num _ => true
  | _ => false

/-- Test for a JSON integer value. -/
def isIntJson : Json → Bool
  | .num q => q.den == 1
  | _ => false

/-- Contract shape of one `suspicious_accounts` entry: exactly the fields
`account_id` (string), `suspicion_score` (number), `detected_patterns` (list
of strings), `ring_id` (string or null). -/
def accountShape : Json → Bool
  | .obj [("account_id", .str _), ("suspicion_score", .num _),
          ("detected_patterns", .arr ps), ("ring_id", r)] =>
    ps.all isStrJson &&
      (match r with
       | .str _ => true
       | .null => true
       | _ => false)
  | _ => false

/-- Contract shape of one `fraud_rings` entry: exactly the fields `ring_id`,
`member_accounts`, `pattern_type`, `risk_score`. -/
def ringShape : Json → Bool
  | .obj [("ring_id", .str _), ("member_accounts", .arr ms),
          ("pattern_type", .str _), ("risk_score", .num _)] =>
    ms.all isStrJson
  | _ => false

/-- Contract shape of the `summary` object: exactly its four fields, the
counters integers. -/
def summaryShape : Json → Bool
  | .obj [("total_accounts_analyzed", t), ("suspicious_accounts_flagged", f),
          ("fraud_rings_detected", d), ("processing_time_seconds", p)] =>
    isIntJson t && isIntJson f && isIntJson d && isNumJson p
  | _ => false

/-- Contract shape of the whole `AnalysisResult` JSON: exactly the three
top-level fields, with the entry shapes above — no field missing, none
extra. -/
def resultShape : Json → Bool
  | .obj [("suspicious_accounts", .arr as), ("fraud_rings", .arr rs),
          ("summary", s)] =>
    as.all accountShape && rs.all ringShape && summaryShape s
  | _ => false

/-! ## Theorems -/

/-- A three-transaction ledger realizing the spec's scenario of a tight
three-account cycle A→B→C→A; used to instantiate proved properties at a
concrete input. -/
def demoRows : List RawRow :=
  [⟨some "t1", some "A", some "B", some 1000, some 0⟩,
   ⟨some "t2", some "B", some "C", some 1000, some 600⟩,
   ⟨some "t3", some "C", some "A", some 1000, some 1200⟩]

/-- C10: the GET and POST handlers of the sample-analysis route are
extensionally equivalent — for every environment configuration and every
behavior of the external fetch calls they return identical responses. -/
theorem samplePOST_eq_sampleGET : ∀ w : SampleWorld, samplePOST w = sampleGET w :=
  fun _ => rfl

/-- C7: the process bridge `analyzeCsv` passes exactly one argument — the
input file path — to the engine script; on a non-zero exit code it rejects
with a message embedding the captured stderr text and yields no result; on
exit code zero it returns the JSON parsed from the captured stdout, failing
exactly when that output is not parseable JSON. -/
theorem analyzeCsv_contract (pythonScript csvPath : String)
    (parseJson : String → Option Json) (run : ProcessRun) :
    engineArgs pythonScript csvPath = [csvPath] ∧
    (run.exitCode ≠ 0 →
      ∃ pre, analyzeCsv parseJson run = .error (pre ++ run.stderr)) ∧
    (∀ v, run.exitCode = 0 → parseJson run.stdout = some v →
      analyzeCsv parseJson run = .ok v) ∧
    (run.exitCode = 0 → parseJson run.stdout = none →
      ∃ msg, analyzeCsv parseJson run = .error msg) := by
  refine ⟨rfl, fun h => ?_, fun v h hp => ?_, fun h hp => ?_⟩
  · exact ⟨"Python process exited with code " ++ toString run.exitCode ++ ": ",
      by simp [analyzeCsv, h]⟩
  · simp [analyzeCsv, h, hp]
  · exact ⟨"Failed to parse Python output: " ++ run.stdout,
      by simp [analyzeCsv, h, hp]⟩

/-- Witness for C7 at concrete process runs: a failing run with stderr
`"boom"`, a succeeding run with parseable stdout, and a succeeding run with
unparseable stdout. -/
theorem analyzeCsv_contract_witness :
    engineArgs "main.py" "input.csv" = ["input.csv"] ∧
    (∃ pre, analyzeCsv (fun _ => some .null) ⟨1, "", "boom"⟩ = .error (pre ++ "boom")) ∧
    analyzeCsv (fun _ => some .null) ⟨0, "out", ""⟩ = .ok .null ∧
    (∃ msg, analyzeCsv (fun _ => none) ⟨0, "bad", ""⟩ = .error msg) := by
  obtain ⟨h1, h2, -, -⟩ :=
    analyzeCsv_contract "main.py" "input.csv" (fun _ => some .null) ⟨1, "", "boom"⟩
  obtain ⟨-, -, h3, -⟩ :=
    analyzeCsv_contract "main.py" "input.csv" (fun _ => some .null) ⟨0, "out", ""⟩
  obtain ⟨-, -, -, h4⟩ :=
    analyzeCsv_contract "main.py" "input.csv" (fun _ => none) ⟨0, "bad", ""⟩
  exact ⟨h1, h2 (by decide), h3 .null rfl rfl, h4 rfl rfl⟩

/-- C9: the analyze-route POST handler never escapes with an exception — a
missing `file` form entry yields 400 `No file provided`; a missing backend URL
yields 500 `Backend URL not configured`; a thrown `formData` error, a backend
fetch error, a non-OK backend response and a JSON-parse error each resolve to
status 500 with the exception's message (or `"Analysis failed"` for a
non-`Error` throw) in the `error` field. -/
theorem analyzePOST_contract (w : AnalyzeWorld) :
    (w.formFile = .ok none →
      analyzePOST w = ⟨400, .obj [("error", .str "No file provided")]⟩) ∧
    (∀ f, w.formFile = .ok (some f) → w.backendUrl = none →
      analyzePOST w = ⟨500, .obj [("error", .str "Backend URL not configured")]⟩) ∧
    (∀ e, w.formFile = .error e →
      analyzePOST w = ⟨500, .obj [("error", .str (e.getD "Analysis failed"))]⟩) ∧
    (∀ f u e, w.formFile = .ok (some f) → w.backendUrl = some u →
      w.fetchResult = .error e →
      analyzePOST w = ⟨500, .obj [("error", .str (e.getD "Analysis failed"))]⟩) ∧
    (∀ f u resp, w.formFile = .ok (some f) → w.backendUrl = some u →
      w.fetchResult = .ok resp → resp.ok = false →
      analyzePOST w = ⟨500, .obj [("error",
        .str ("Backend analysis failed: " ++ resp.textBody))]⟩) ∧
    (∀ f u resp e, w.formFile = .ok (some f) → w.backendUrl = some u →
      w.fetchResult = .ok resp → resp.ok = true → resp.jsonBody = .error e →
      analyzePOST w = ⟨500, .obj [("error", .str (e.getD "Analysis failed"))]⟩) := by
  refine ⟨fun h1 => ?_, fun f h1 h2 => ?_, fun e h1 => ?_,
    fun f u e h1 h2 h3 => ?_, fun f u resp h1 h2 h3 h4 => ?_,
    fun f u resp e h1 h2 h3 h4 h5 => ?_⟩ <;>
    simp [analyzePOST, analyzeCatch, h1, *]

/-- Witness for C9: a request whose form data carries no `file` entry is
answered with status 400 and body `{error: "No file provided"}`. -/
theorem analyzePOST_contract_witness :
    analyzePOST ⟨.ok none, none, .error none⟩ =
      ⟨400, .obj [("error", .str "No file provided")]⟩ :=
  (analyzePOST_contract ⟨.ok none, none, .error none⟩).1 rfl

/-! ### Structure of `generateGraphEdges` (C8) and its nondeterminism (C3) -/

theorem pushEdge_edges (rand : ℕ → ℚ) (now sc off : ℚ) (st : EdgeGenSt)
    (s t : String) :
    (pushEdge rand now sc off st s t).edges =
      st.edges ++ [⟨s, t, rand st.k * sc + off,
        now - rand (st.k + 1) * 72 * 60 * 60 * 1000,
        now - rand (st.k + 1) * 72 * 60 * 60 * 1000⟩] := by
  simp [pushEdge, mul_assoc]

theorem foldl_pushEdge_map (rand : ℕ → ℚ) (now sc off : ℚ)
    (f g : ℕ → String) (l : List ℕ) (st : EdgeGenSt) :
    ((l.foldl (fun st i => pushEdge rand now sc off st (f i) (g i)) st).edges).map
        (fun e => (e.source, e.target)) =
      st.edges.map (fun e => (e.source, e.target)) ++ l.map (fun i => (f i, g i)) := by
  induction l generalizing st with
  | nil => simp
  | cons a l ih =>
    rw [List.foldl_cons, ih, pushEdge_edges]
    simp

theorem genRingEdges_map (rand : ℕ → ℚ) (now : ℚ) (st : EdgeGenSt)
    (ring : FraudRing) :
    ((genRingEdges rand now st ring).edges).map (fun e => (e.source, e.target)) =
      st.edges.map (fun e => (e.source, e.target)) ++
        (if ring.pattern_type = "cycle" then
          (List.range ring.member_accounts.length).map fun i =>
            (ring.member_accounts.getD i "",
             ring.member_accounts.getD ((i + 1) % ring.member_accounts.length) "")
         else []) := by
  unfold genRingEdges
  by_cases h : ring.pattern_type = "cycle"
  · simp [h, foldl_pushEdge_map]
  · simp [h]

theorem foldl_genRingEdges_map (rand : ℕ → ℚ) (now : ℚ)
    (rings : List FraudRing) (st : EdgeGenSt) :
    ((rings.foldl (genRingEdges rand now) st).edges).map
        (fun e => (e.source, e.target)) =
      st.edges.map (fun e => (e.source, e.target)) ++
        rings.flatMap (fun ring =>
          if ring.pattern_type = "cycle" then
            (List.range ring.member_accounts.length).map fun i =>
              (ring.member_accounts.getD i "",
               ring.member_accounts.getD ((i + 1) % ring.member_accounts.length) "")
          else []) := by
  induction rings generalizing st with
  | nil => simp
  | cons r rings ih =>
    rw [List.foldl_cons, ih, genRingEdges_map]
    simp

theorem chainBound_toNat (k : ℕ) :
    (min ((k : Int) - 1) 5).toNat = min (max (k - 1) 0) 5 := by
  omega

/-- C8: for every analysis result (and every ambient randomness and clock),
the endpoint sequence of `generateGraphEdges` is exactly: for each fraud ring
of pattern `"cycle"` with `n` members, the `n` edges member `i` → member
`(i+1) mod n`; followed by `min(max(k-1,0), 5)` chain edges between
consecutive accounts among the `k` suspicious accounts whose `ring_id` is
falsy; and nothing else — rings of any other pattern type contribute no
edges. -/
theorem generateGraphEdges_structure (rand : ℕ → ℚ) (now : ℚ)
    (data : AnalysisResult) :
    (generateGraphEdges rand now data).map (fun e => (e.source, e.target)) =
      (data.fraud_rings.flatMap fun ring =>
        if ring.pattern_type = "cycle" then
          (List.range ring.member_accounts.length).map fun i =>
            (ring.member_accounts.getD i "",
             ring.member_accounts.getD ((i + 1) % ring.member_accounts.length) "")
        else []) ++
      ((List.range (min (max
          ((data.suspicious_accounts.filter fun a => falsyRingId a.ring_id).length
            - 1) 0) 5)).map fun i =>
        (((data.suspicious_accounts.filter fun a => falsyRingId a.ring_id).getD i
            default).account_id,
         ((data.suspicious_accounts.filter fun a => falsyRingId a.ring_id).getD
            (i + 1) default).account_id)) := by
  unfold generateGraphEdges
  rw [foldl_pushEdge_map, foldl_genRingEdges_map, chainBound_toNat]
  simp

/-- A concrete analysis result with one two-member cycle ring, used to exhibit
the randomness of the presentation-layer edge generation. -/
def c3Data : AnalysisResult :=
  ⟨[], [⟨"ring_1", ["A", "B"], "cycle", 50⟩], ⟨2, 0, 1, 0⟩⟩

/-- Counterexample to C3 as stated: two runs on the byte-identical result
`c3Data` disagree on the derived-edge computation of the presentation layer —
`generateGraphEdges` samples `Math.random()` for edge amounts, so a run whose
ambient random stream is constantly 0 and one whose stream is constantly 1/2
produce different edge lists. -/
theorem generateGraphEdges_not_deterministic :
    generateGraphEdges (fun _ => 0) 0 c3Data ≠
      generateGraphEdges (fun _ => 1 / 2) 0 c3Data := by
  with_unfolding_all decide

/-! ### Graph membership lemmas -/

theorem mem_accountsOf_source {txs : List Transaction} {t : Transaction}
    (ht : t ∈ txs) : t.source_account ∈ accountsOf txs := by
  unfold accountsOf
  rw [List.mem_dedup]
  exact List.mem_append_left _ (List.mem_map_of_mem _ ht)

theorem mem_accountsOf_target {txs : List Transaction} {t : Transaction}
    (ht : t ∈ txs) : t.target_account ∈ accountsOf txs := by
  unfold accountsOf
  rw [List.mem_dedup]
  exact List.mem_append_right _ (List.mem_map_of_mem _ ht)

theorem mem_sortedAccounts {txs : List Transaction} {a : String} :
    a ∈ sortedAccounts txs ↔ a ∈ accountsOf txs := by
  unfold sortedAccounts
  exact List.mem_insertionSort _

theorem forwardTargets_subset {txs : List Transaction} {a b : String}
    (hb : b ∈ forwardTargets txs a) : b ∈ accountsOf txs := by
  unfold forwardTargets at hb
  rw [List.mem_dedup] at hb
  obtain ⟨t, ht, rfl⟩ := List.mem_map.1 hb
  exact mem_accountsOf_target (List.mem_filter.1 ht).1

/-! ### Cycle-detector ring hints stay inside the graph -/

theorem cycleSearch_subset {txs : List Transaction} {maxLen : ℕ} {start : String} :
    ∀ {fuel : ℕ} {path : List String} {cur : String} {c : List String},
      (∀ x ∈ path, x ∈ accountsOf txs) →
      c ∈ cycleSearch txs maxLen start path cur fuel →
      ∀ a ∈ c, a ∈ accountsOf txs := by
  intro fuel
  induction fuel with
  | zero =>
    intro path cur c hp hc
    simp [cycleSearch] at hc
  | succ fuel ih =>
    intro path cur c hp hc
    simp only [cycleSearch, List.mem_flatMap] at hc
    obtain ⟨nxt, hnxt, hmem⟩ := hc
    rcases List.mem_append.1 hmem with hmem | hmem
    · split at hmem
      · rw [List.mem_singleton] at hmem
        subst hmem
        exact hp
      · simp at hmem
    · split at hmem
      · refine ih ?_ hmem
        intro x hx
        rcases List.mem_append.1 hx with hx | hx
        · exact hp x hx
        · rw [List.mem_singleton] at hx
          subst hx
          exact forwardTargets_subset hnxt
      · simp at hmem

theorem detectCycles_subset {txs : List Transaction} {c : List String}
    (hc : c ∈ detectCycles txs) : ∀ a ∈ c, a ∈ accountsOf txs := by
  unfold detectCycles at hc
  rw [List.mem_flatMap] at hc
  obtain ⟨s, hs, hc⟩ := hc
  refine cycleSearch_subset ?_ (List.mem_filter.1 hc).1
  intro x hx
  rw [List.mem_singleton] at hx
  subst hx
  exact mem_sortedAccounts.1 hs

theorem cycleSignals_hint {txs : List Transaction} {s : DetectionSignal}
    (hs : s ∈ cycleSignals txs) : ∀ a ∈ s.ring_hint, a ∈ accountsOf txs := by
  unfold cycleSignals at hs
  rw [List.mem_flatMap] at hs
  obtain ⟨c, hc, hs⟩ := hs
  obtain ⟨m, _, rfl⟩ := List.mem_map.1 hs
  exact detectCycles_subset hc

/-! ### Smurfing-detector ring hints stay inside the graph -/

theorem fanWindow_subset {pool : List Transaction} {side : Transaction → String}
    {cps : List String} {amts : List ℚ}
    (h : fanWindow pool side = some (cps, amts)) :
    ∀ a ∈ cps, ∃ t ∈ pool, side t = a := by
  unfold fanWindow at h
  obtain ⟨t0, ht0, h⟩ := List.exists_of_findSome?_eq_some h
  dsimp only [] at h
  split at h
  · obtain ⟨rfl, -⟩ : cps = _ ∧ amts = _ := by
      injection h with h
      injection h with h1 h2
      exact ⟨h1.symm, h2.symm⟩
    intro a ha
    rw [List.mem_dedup] at ha
    obtain ⟨t, ht, rfl⟩ := List.mem_map.1 ha
    exact ⟨t, List.mem_of_mem_filter ht, rfl⟩
  · exact absurd h (by simp)

theorem smallInbound_subset {txs : List Transaction} {h : String} {t : Transaction}
    (ht : t ∈ smallInbound txs h) : t ∈ txs :=
  List.mem_of_mem_filter ht

theorem smallOutbound_subset {txs : List Transaction} {h : String} {t : Transaction}
    (ht : t ∈ smallOutbound txs h) : t ∈ txs :=
  List.mem_of_mem_filter ht

theorem smurfSignalsFor_hint {txs : List Transaction} {h : String}
    {s : DetectionSignal} (hh : h ∈ accountsOf txs)
    (hs : s ∈ smurfSignalsFor txs h) : ∀ a ∈ s.ring_hint, a ∈ accountsOf txs := by
  unfold smurfSignalsFor at hs
  have hint_ok : ∀ (cps : List String) (amts : List ℚ)
      (side : Transaction → String) (pool : List Transaction),
      (∀ t ∈ pool, t ∈ txs) →
      (∀ t ∈ pool, side t ∈ accountsOf txs) →
      fanWindow pool side = some (cps, amts) →
      s ∈ smurfHintSignals (smurfStrength cps amts) ((h :: cps).dedup) →
      ∀ a ∈ s.ring_hint, a ∈ accountsOf txs := by
    intro cps amts side pool hpool hside hfw hmem a ha
    obtain ⟨m, _, rfl⟩ := List.mem_map.1 hmem
    simp only [List.mem_dedup] at ha
    rcases List.mem_cons.1 ha with rfl | ha
    · exact hh
    · obtain ⟨t, ht, rfl⟩ := fanWindow_subset hfw a ha
      exact hside t ht
  rcases List.mem_append.1 hs with hs | hs
  · revert hs
    split
    case _ cps amts heq =>
      intro hs
      exact hint_ok cps amts _ _ (fun t ht => smallInbound_subset ht)
        (fun t ht => mem_accountsOf_source (smallInbound_subset ht)) heq hs
    case _ =>
      intro hs
      simp at hs
  · revert hs
    split
    case _ cps amts heq =>
      intro hs
      exact hint_ok cps amts _ _ (fun t ht => smallOutbound_subset ht)
        (fun t ht => mem_accountsOf_target (smallOutbound_subset ht)) heq hs
    case _ =>
      intro hs
      simp at hs

theorem smurfSignals_hint {txs : List Transaction} {s : DetectionSignal}
    (hs : s ∈ smurfSignals txs) : ∀ a ∈ s.ring_hint, a ∈ accountsOf txs := by
  unfold smurfSignals at hs
  rw [List.mem_flatMap] at hs
  obtain ⟨h, hh, hs⟩ := hs
  exact smurfSignalsFor_hint (mem_sortedAccounts.1 hh) hs

/-! ### Shell-detector ring hints stay inside the graph -/

theorem shellSignalsFor_hint {txs : List Transaction} {x : String}
    {s : DetectionSignal} (hx : x ∈ accountsOf txs)
    (hs : s ∈ shellSignalsFor txs x) : ∀ a ∈ s.ring_hint, a ∈ accountsOf txs := by
  unfold shellSignalsFor at hs
  split at hs
  · obtain ⟨m, _, rfl⟩ := List.mem_map.1 hs
    intro a ha
    simp only [List.mem_dedup] at ha
    rcases List.mem_cons.1 ha with rfl | ha
    · exact hx
    · rcases List.mem_append.1 ha with ha | ha
      · obtain ⟨t, ht, rfl⟩ := List.mem_map.1 ha
        exact mem_accountsOf_source (List.mem_of_mem_filter ht)
      · obtain ⟨t, ht, rfl⟩ := List.mem_map.1 ha
        exact mem_accountsOf_target (List.mem_of_mem_filter ht)
  · simp at hs

theorem shellSignals_hint {txs : List Transaction} {s : DetectionSignal}
    (hs : s ∈ shellSignals txs) : ∀ a ∈ s.ring_hint, a ∈ accountsOf txs := by
  unfold shellSignals at hs
  rw [List.mem_flatMap] at hs
  obtain ⟨x, hx, hs⟩ := hs
  exact shellSignalsFor_hint (mem_sortedAccounts.1 hx) hs

theorem allSignals_hint {txs : List Transaction} {s : DetectionSignal}
    (hs : s ∈ allSignals txs) : ∀ a ∈ s.ring_hint, a ∈ accountsOf txs := by
  unfold allSignals at hs
  rcases List.mem_append.1 hs with hs | hs
  · rcases List.mem_append.1 hs with hs | hs
    · exact cycleSignals_hint hs
    · exact smurfSignals_hint hs
  · exact shellSignals_hint hs

/-! ### Aggregator clusters stay inside the union of the hints -/

theorem foldl_insertHint_subset {P : String → Prop} :
    ∀ {hs : List (List String)} {acc : List (List String)},
      (∀ h ∈ hs, ∀ a ∈ h, P a) → (∀ c ∈ acc, ∀ a ∈ c, P a) →
      ∀ c ∈ hs.foldl insertHint acc, ∀ a ∈ c, P a := by
  intro hs
  induction hs with
  | nil =>
    intro acc _ hacc
    simpa using hacc
  | cons h hs ih =>
    intro acc hhs hacc
    rw [List.foldl_cons]
    refine ih (fun h' hh' => hhs h' (List.mem_cons_of_mem _ hh')) ?_
    intro c hc a ha
    simp only [insertHint, List.partition_eq_filter_filter] at hc
    rcases List.mem_cons.1 hc with rfl | hc
    · rw [List.mem_dedup] at ha
      rcases List.mem_append.1 ha with ha | ha
      · obtain ⟨c', hc', ha⟩ := List.mem_flatten.1 ha
        exact hacc c' (List.mem_of_mem_filter hc') a ha
      · exact hhs h (List.mem_cons_self _ _) a ha
    · exact hacc c (List.mem_of_mem_filter hc) a ha

theorem mergeHints_subset {P : String → Prop} {hs : List (List String)}
    (hhs : ∀ h ∈ hs, ∀ a ∈ h, P a) :
    ∀ c ∈ mergeHints hs, ∀ a ∈ c, P a :=
  foldl_insertHint_subset hhs (by simp)

theorem clustersFor_subset {txs : List Transaction} {p : String}
    {c : List String} (hc : c ∈ clustersFor (allSignals txs) p) :
    ∀ a ∈ c, a ∈ accountsOf txs := by
  unfold clustersFor at hc
  refine mergeHints_subset ?_ c hc
  intro h hh a ha
  obtain ⟨s, hsf, rfl⟩ := List.mem_map.1 hh
  exact allSignals_hint (List.mem_of_mem_filter hsf) a ha

theorem mem_aggregateRings {sigs : List DetectionSignal} {r : FraudRing} :
    r ∈ aggregateRings sigs ↔
      ∃ p ∈ patternLabels, ∃ c ∈ clustersFor sigs p, r = mkRing sigs p c := by
  unfold aggregateRings
  rw [List.mem_insertionSort, List.mem_flatMap]
  constructor
  · rintro ⟨p, hp, hr⟩
    obtain ⟨c, hc, rfl⟩ := List.mem_map.1 hr
    exact ⟨p, hp, c, hc, rfl⟩
  · rintro ⟨p, hp, c, hc, rfl⟩
    exact ⟨p, hp, List.mem_map_of_mem _ hc⟩

theorem aggregateRings_members {txs : List Transaction} {r : FraudRing}
    (hr : r ∈ aggregateRings (allSignals txs)) :
    ∀ m ∈ r.member_accounts, m ∈ accountsOf txs := by
  obtain ⟨p, _, c, hc, rfl⟩ := mem_aggregateRings.1 hr
  intro m hm
  have hm' : m ∈ c := (List.mem_insertionSort _).1 hm
  exact clustersFor_subset hc m hm'

/-! ### Score bounds -/

theorem le_maxScore {l : List ℚ} {x : ℚ} (hx : x ∈ l) : x ≤ maxScore l := by
  unfold maxScore
  induction l with
  | nil => cases hx
  | cons y l ih =>
    rcases List.mem_cons.1 hx with rfl | hx
    · exact le_max_left _ _
    · exact le_trans (ih hx) (le_max_right _ _)

theorem maxScore_nonneg (l : List ℚ) : 0 ≤ maxScore l := by
  unfold maxScore
  induction l with
  | nil => exact le_refl 0
  | cons y l ih => exact le_trans ih (le_max_right _ _)

theorem maxScore_le {l : List ℚ} {b : ℚ} (hb : ∀ x ∈ l, x ≤ b) (h0 : 0 ≤ b) :
    maxScore l ≤ b := by
  unfold maxScore
  induction l with
  | nil => exact h0
  | cons y l ih =>
    exact max_le (hb y (List.mem_cons_self _ _))
      (ih fun x hx => hb x (List.mem_cons_of_mem _ hx))

theorem maxScore_mem {l : List ℚ} (h0 : ∀ x ∈ l, 0 ≤ x) (hne : l ≠ []) :
    maxScore l ∈ l := by
  induction l with
  | nil => exact absurd rfl hne
  | cons y l ih =>
    rcases Decidable.em (l = []) with rfl | hl
    · simp [maxScore, max_eq_left (h0 y (List.mem_cons_self _ _))]
    · have hmem := ih (fun x hx => h0 x (List.mem_cons_of_mem _ hx)) hl
      unfold maxScore at hmem ⊢
      rw [List.foldr_cons]
      rcases le_total y (l.foldr max 0) with h | h
      · rw [max_eq_right h]
        exact List.mem_cons_of_mem _ hmem
      · rw [max_eq_left h]
        exact List.mem_cons_self _ _

theorem patternStrength_nonneg (sigs : List DetectionSignal) (a p : String) :
    0 ≤ patternStrength sigs a p := by
  unfold patternStrength
  exact maxScore_nonneg _

theorem suspicionScore_nonneg (sigs : List DetectionSignal) (a : String) :
    0 ≤ suspicionScore sigs a := by
  unfold suspicionScore
  refine le_min (by norm_num) ?_
  have : (0:ℚ) ≤ (patternLabels.map (patternStrength sigs a)).sum := by
    refine List.sum_nonneg ?_
    intro x hx
    obtain ⟨p, _, rfl⟩ := List.mem_map.1 hx
    exact patternStrength_nonneg sigs a p
  positivity

theorem suspicionScore_le (sigs : List DetectionSignal) (a : String) :
    suspicionScore sigs a ≤ 100 := by
  unfold suspicionScore
  exact min_le_left _ _

/-! ### Assembler characterizations -/

theorem mem_flaggedAccounts {txs : List Transaction} {sigs : List DetectionSignal}
    {rings : List FraudRing} {sa : SuspiciousAccount} :
    sa ∈ flaggedAccounts txs sigs rings ↔
      ∃ a ∈ sortedAccounts txs, reportingThreshold ≤ suspicionScore sigs a ∧
        sa = ⟨a, suspicionScore sigs a, detectedPatterns sigs a, ringIdFor rings a⟩ := by
  unfold flaggedAccounts
  rw [List.mem_insertionSort, List.mem_map]
  constructor
  · rintro ⟨a, ha, rfl⟩
    obtain ⟨ha, hsc⟩ := List.mem_filter.1 ha
    exact ⟨a, ha, of_decide_eq_true hsc, rfl⟩
  · rintro ⟨a, ha, hsc, rfl⟩
    exact ⟨a, List.mem_filter.2 ⟨ha, decide_eq_true hsc⟩, rfl⟩

theorem runEngine_fraud_rings (rows : List RawRow) :
    (runEngine rows).fraud_rings = aggregateRings (allSignals (loadLenient rows)) :=
  rfl

theorem runEngine_suspicious (rows : List RawRow) :
    (runEngine rows).suspicious_accounts =
      flaggedAccounts (loadLenient rows) (allSignals (loadLenient rows))
        (aggregateRings (allSignals (loadLenient rows))) :=
  rfl

/-! ### The invariant claims -/

/-- C2: in every engine result, each non-null `ring_id` on a suspicious
account is the id of a ring present in `fraud_rings`, and every member of
every fraud ring is an account of the graph built from the input. -/
theorem result_integrity (rows : List RawRow) :
    (∀ sa ∈ (runEngine rows).suspicious_accounts, ∀ rid, sa.ring_id = some rid →
      ∃ r ∈ (runEngine rows).fraud_rings, r.ring_id = rid) ∧
    (∀ r ∈ (runEngine rows).fraud_rings, ∀ m ∈ r.member_accounts,
      m ∈ accountsOf (loadLenient rows)) := by
  constructor
  · intro sa hsa rid hrid
    rw [runEngine_suspicious] at hsa
    obtain ⟨a, _, _, rfl⟩ := mem_flaggedAccounts.1 hsa
    simp only [ringIdFor] at hrid
    obtain ⟨r, hfind, hr⟩ := Option.map_eq_some'.1 hrid
    refine ⟨r, ?_, hr⟩
    rw [runEngine_fraud_rings]
    exact List.mem_of_find?_eq_some hfind
  · intro r hr
    rw [runEngine_fraud_rings] at hr
    exact aggregateRings_members hr

set_option maxRecDepth 400000 in
/-- Witness for C2 at the cycle scenario: the ring id recorded on the flagged
account A names a ring of the result, and A itself is an account of the demo
graph. -/
theorem result_integrity_witness :
    (∃ r ∈ (runEngine demoRows).fraud_rings, r.ring_id = "cycle_A-B-C") ∧
    "A" ∈ accountsOf (loadLenient demoRows) := by
  obtain ⟨h1, h2⟩ := result_integrity demoRows
  constructor
  · exact h1 ⟨"A", 100, ["cycle", "shell"], some "cycle_A-B-C"⟩
      (by with_unfolding_all decide) "cycle_A-B-C" rfl
  · exact h2 ⟨"cycle_A-B-C", ["A", "B", "C"], "cycle", 100⟩
      (by with_unfolding_all decide) "A" (by decide)

/-- C5: the risk score of every emitted fraud ring is the maximum of the
suspicion scores of its member accounts — it dominates every member's score
and, for a non-empty ring, is attained by some member. -/
theorem ring_risk_is_max (rows : List RawRow) :
    ∀ r ∈ (runEngine rows).fraud_rings,
      (∀ m ∈ r.member_accounts,
        suspicionScore (allSignals (loadLenient rows)) m ≤ r.risk_score) ∧
      (r.member_accounts ≠ [] → ∃ m ∈ r.member_accounts,
        r.risk_score = suspicionScore (allSignals (loadLenient rows)) m) := by
  intro r hr
  rw [runEngine_fraud_rings] at hr
  obtain ⟨p, _, c, _, rfl⟩ := mem_aggregateRings.1 hr
  constructor
  · intro m hm
    exact le_maxScore (List.mem_map_of_mem _ hm)
  · intro hne
    have h0 : ∀ x ∈ (mkRing (allSignals (loadLenient rows)) p c).member_accounts.map
        (suspicionScore (allSignals (loadLenient rows))), 0 ≤ x := by
      intro x hx
      obtain ⟨m, _, rfl⟩ := List.mem_map.1 hx
      exact suspicionScore_nonneg _ _
    have hmem := maxScore_mem h0 (by simpa using hne)
    obtain ⟨m, hm, hms⟩ := List.mem_map.1 hmem
    exact ⟨m, hm, hms.symm⟩

set_option maxRecDepth 400000 in
/-- Witness for C5 at the cycle scenario: the demo ring's risk score 100 is
attained by one of its members' suspicion scores. -/
theorem ring_risk_is_max_witness :
    ∃ m ∈ ["A", "B", "C"],
      (100 : ℚ) = suspicionScore (allSignals (loadLenient demoRows)) m := by
  have h := ring_risk_is_max demoRows ⟨"cycle_A-B-C", ["A", "B", "C"], "cycle", 100⟩
    (by with_unfolding_all decide)
  exact h.2 (by decide)

/-- C6: every reported suspicion score and every ring risk score lies in
`[0, 100]` — the Scorer's weighted sum is scaled into that interval and
capped at 100, and ring risks inherit the bounds. -/
theorem scores_in_range (rows : List RawRow) :
    (∀ sa ∈ (runEngine rows).suspicious_accounts,
      0 ≤ sa.suspicion_score ∧ sa.suspicion_score ≤ 100) ∧
    (∀ r ∈ (runEngine rows).fraud_rings,
      0 ≤ r.risk_score ∧ r.risk_score ≤ 100) := by
  constructor
  · intro sa hsa
    rw [runEngine_suspicious] at hsa
    obtain ⟨a, _, _, rfl⟩ := mem_flaggedAccounts.1 hsa
    exact ⟨suspicionScore_nonneg _ _, suspicionScore_le _ _⟩
  · intro r hr
    rw [runEngine_fraud_rings] at hr
    obtain ⟨p, _, c, _, rfl⟩ := mem_aggregateRings.1 hr
    refine ⟨maxScore_nonneg _, maxScore_le ?_ (by norm_num)⟩
    intro x hx
    obtain ⟨m, _, rfl⟩ := List.mem_map.1 hx
    exact suspicionScore_le _ _

set_option maxRecDepth 400000 in
/-- Witness for C6 at the cycle scenario: the flagged account A's score is in
`[0, 100]`. -/
theorem scores_in_range_witness :
    (0 : ℚ) ≤ 100 ∧ (100 : ℚ) ≤ 100 := by
  have h := (scores_in_range demoRows).1
    ⟨"A", 100, ["cycle", "shell"], some "cycle_A-B-C"⟩
    (by with_unfolding_all decide)
  exact h

/-! ### Determinism of the engine (C3, amended) -/

/-- C3 (amended to the engine's result, excluding the randomized
presentation-layer edge generation): the engine is a pure function of its
input — two runs on byte-identical input produce identical results, the
serialized ordering included — and every emitted ring id is derived
deterministically from the ring's pattern type and its sorted member set. -/
theorem engine_deterministic (rows : List RawRow) :
    runEngine rows = runEngine rows ∧
    ∀ r ∈ (runEngine rows).fraud_rings,
      r.ring_id = ringIdOf r.pattern_type r.member_accounts ∧
      r.member_accounts.Sorted (· ≤ ·) := by
  refine ⟨rfl, ?_⟩
  intro r hr
  rw [runEngine_fraud_rings] at hr
  obtain ⟨p, _, c, _, rfl⟩ := mem_aggregateRings.1 hr
  exact ⟨rfl, List.sorted_insertionSort _ _⟩

set_option maxRecDepth 400000 in
/-- Witness for C3 at the cycle scenario: the demo ring's id equals the
deterministic derivation from its pattern type and sorted members, which are
indeed sorted. -/
theorem engine_deterministic_witness :
    "cycle_A-B-C" = ringIdOf "cycle" ["A", "B", "C"] ∧
    (["A", "B", "C"] : List String).Sorted (· ≤ ·) := by
  have h := (engine_deterministic demoRows).2
    ⟨"cycle_A-B-C", ["A", "B", "C"], "cycle", 100⟩
    (by with_unfolding_all decide)
  exact h

/-! ### Empty input (C4) -/

/-- C4: an input with zero valid transactions is not an error — the engine
returns the empty report with all summary counters zero. -/
theorem empty_input_result (rows : List RawRow) (h : loadLenient rows = []) :
    runEngine rows = ⟨[], [], ⟨0, 0, 0, 0⟩⟩ := by
  unfold runEngine
  rw [h]
  with_unfolding_all decide

/-- Witness for C4 at the empty ledger: the loader yields no transactions and
the engine returns the empty report. -/
theorem empty_input_result_witness :
    runEngine [] = ⟨[], [], ⟨0, 0, 0, 0⟩⟩ :=
  empty_input_result [] rfl

/-! ### Output contract shape (C1) -/

theorem accountToJson_shape (a : SuspiciousAccount) :
    accountShape (accountToJson a) = true := by
  unfold accountToJson accountShape
  cases a.ring_id <;>
    simp [List.all_eq_true, isStrJson]

theorem ringToJson_shape (r : FraudRing) : ringShape (ringToJson r) = true := by
  unfold ringToJson ringShape
  simp [List.all_eq_true, isStrJson]

theorem summaryToJson_shape (s : Summary) :
    summaryShape (summaryToJson s) = true := by
  unfold summaryToJson summaryShape
  simp [isIntJson, isNumJson, Rat.den_natCast]

theorem resultToJson_shape (res : AnalysisResult) :
    resultShape (resultToJson res) = true := by
  unfold resultToJson resultShape
  simp only [Bool.and_eq_true, List.all_eq_true]
  refine ⟨⟨?_, ?_⟩, ?_⟩
  · intro j hj
    obtain ⟨a, _, rfl⟩ := List.mem_map.1 hj
    exact accountToJson_shape a
  · intro j hj
    obtain ⟨r, _, rfl⟩ := List.mem_map.1 hj
    exact ringToJson_shape r
  · exact summaryToJson_shape res.summary

/-- C1: the serialized engine result has exactly the output contract's JSON
shape for every input — the three top-level collections with exactly the
contract's fields per entry, no field missing and none extra. -/
theorem output_contract_shape (rows : List RawRow) :
    resultShape (resultToJson (runEngine rows)) = true :=
  resultToJson_shape (runEngine rows)

end MuleRift
